import Mathlib

/-!
Shallow embedding of the `spa-server` static file server (Go).

Strings and byte slices are modelled as `List Char` (one `Char` per byte;
all concrete inputs below are ASCII or Latin-1 bytes).  The server resolves a
request URL path against an absolute served root using `filepath.Join`
(which cleans `.`/`..` segments), guards the result with a
`strings.HasPrefix` check against the root, and serves the file, falling
back to a precomputed default-document path on escape or open failure.
External collaborators (the filesystem, `mime.TypeByExtension`,
`http.DetectContentType`) are parameters of the model, gathered in `Env`.
-/

abbrev Str := List Char

/-- Model of `strings.HasPrefix s pre`: does `s` start with the string `pre`? -/
def goHasPrefix (s pre : Str) : Bool :=
  pre.isPrefixOf s

/-- Model of `strings.TrimPrefix s pre`: drop a leading `pre` from `s` if present. -/
def goTrimPrefix (s pre : Str) : Str :=
  if pre.isPrefixOf s then s.drop pre.length else s

/-- Split a string into the `/`-separated components, keeping empty
components (the model of splitting a path on the separator, as
`filepath.Clean` walks it). Never returns `[]`. -/
def splitSlash : Str → List Str
  | [] => [[]]
  | c :: cs =>
    match splitSlash cs with
    | [] => [[]]
    | w :: ws => if c = '/' then [] :: w :: ws else (c :: w) :: ws

/-- One step of `filepath.Clean` on a rooted path: push a component onto the
stack of kept components (topmost = deepest).  Empty and `.` components are
dropped; `..` pops the last kept component (or is dropped at the root). -/
def pushComp (stack : List Str) (comp : Str) : List Str :=
  if comp = [] ∨ comp = ['.'] then stack
  else if comp = ['.', '.'] then stack.tail
  else comp :: stack

/-- The kept components of a rooted path after `filepath.Clean`. -/
def cleanComps (cs : List Str) : List Str :=
  (cs.foldl pushComp []).reverse

/-- Rebuild a path string from components, separated by `/`. -/
def joinComps : List Str → Str
  | [] => []
  | [w] => w
  | w :: ws => w ++ '/' :: joinComps ws

/-- Model of `filepath.Clean` for a rooted (absolute) path: eliminate empty, `.` and
`..` components, resolving `..` against the prefix and dropping it at the
root; the result always starts with `/`. -/
def cleanAbs (s : Str) : Str :=
  '/' :: joinComps (cleanComps (splitSlash s))

/-- Model of `filepath.Join dir p` for an absolute `dir` (the served root is made
absolute by `filepath.Abs` at startup): concatenate with a separator and
clean. -/
def goJoin (dir p : Str) : Str :=
  cleanAbs (dir ++ '/' :: p)

/-- Helper for `filepath.Ext`, on the reversed character list: scan from the end of the
path until a `/`; the extension starts at the last `.` of the final
component.  `acc` collects the characters already passed (in order). -/
def extFromRev : Str → Str → Str
  | [], _ => []
  | c :: rest, acc =>
    if c = '/' then []
    else if c = '.' then '.' :: acc
    else extFromRev rest (c :: acc)

/-- Model of `filepath.Ext path`: the suffix beginning at the final dot in the final
slash-separated element, or the empty string if there is no dot. -/
def goExt (s : Str) : Str :=
  extFromRev s.reverse []

example : goJoin "/data".data "/../databackup/x".data = "/databackup/x".data := by decide
example : goJoin "/data".data "/../../etc/passwd".data = "/etc/passwd".data := by decide
example : goJoin "/data".data "index.html".data = "/data/index.html".data := by decide
example : goJoin "/data".data "/a//b/./c".data = "/data/a/b/c".data := by decide
example : goJoin "/data".data [] = "/data".data := by decide
example : goExt "/r/a.tar.gz".data = ".gz".data := by decide
example : goExt "/r.d/noext".data = [] := by decide
example : goHasPrefix "/databackup/x".data "/data".data = true := by decide

/-! ## Server data model -/

/-- A cached response: file bytes plus the Content-Type decided for them
(`CacheEntry` in the source). -/
structure CacheEntry where
  content : Str
  contentType : Str
deriving DecidableEq

/-- The server's shared mutable state: the content cache keyed by absolute
path, and the extension → Content-Type memoization map.  Both are maps with
load/store semantics (`sync.Map` in the source); modelled as association
lists where a store prepends and a load finds the most recent binding. -/
structure SrvState where
  cache : List (Str × CacheEntry)
  types : List (Str × Str)
deriving DecidableEq

/-- The configuration fixed at startup: the absolute served root
(`args.Positional.Directory` after `filepath.Abs`), the default-document
relative name (`args.DefaultDoc`), and the cache flag (`args.MemCache`). -/
structure Config where
  dir : Str
  defaultDocRel : Str
  memCache : Bool

/-- The precomputed Default Document Path:
`defaultDoc := filepath.Join(args.Positional.Directory, args.DefaultDoc)`. -/
def Config.defaultDoc (cfg : Config) : Str :=
  goJoin cfg.dir cfg.defaultDocRel

/-- Result of `os.Open` followed by `ioutil.ReadAll`:
`openErr msg` models an open failure whose `err.Error()` is `msg`;
`readErr` models a successful open whose read fails;
`ok raw` models a successful read of the whole content. -/
inductive OpenResult where
  | openErr (msg : Str)
  | readErr
  | ok (raw : Str)
deriving DecidableEq

/-- The external collaborators of the handler:
`mimeByExt` is `mime.TypeByExtension`, `detect` is
`http.DetectContentType`, and `fs` is the filesystem (open + read). -/
structure Env where
  mimeByExt : Str → Str
  detect : Str → Str
  fs : Str → OpenResult

/-- HTTP request methods distinguished by the handler. -/
inductive Method where
  | get
  | head
  | options
  | other
deriving DecidableEq

/-- The observable response: status code, Content-Type header (if added),
Content-Length header (if added), body bytes. -/
structure Response where
  status : Nat
  contentType : Option Str
  contentLength : Option Nat
  body : Str
deriving DecidableEq

/-- The generic sniffing fallback type. -/
def octetStream : Str := "application/octet-stream".data

/-- Model of `http.Error(w, msg, code)`: sets Content-Type to
`text/plain; charset=utf-8` and writes `msg` followed by a newline. -/
def httpError (msg : Str) (code : Nat) : Response :=
  { status := code
    contentType := some "text/plain; charset=utf-8".data
    contentLength := none
    body := msg ++ ['\n'] }

/-- A successful serve: add Content-Type and Content-Length headers, then
write the content unless the request is a HEAD. -/
def respond (method : Method) (ct : Str) (content : Str) : Response :=
  { status := 200
    contentType := some ct
    contentLength := some content.length
    body := if method = Method.head then [] else content }

/-! ## Content-Type resolution

Two variants exist in the repository.  The extended variant
(`src/unnamed/part_000`, lines 147-170 and 236-256) guards on a non-empty
extension, consults `mime.TypeByExtension`, then sniffs, and serves the
discovered type.  The `src/main.go` variant (lines 132-148) has no registry
lookup and assigns the sniffed type to a shadowed inner variable
(`contentType := http.DetectContentType(...)`, line 142), so the outer
variable that is served stays empty on a map miss. -/

/-- Content-Type logic of the extended variant, returning the served type
and the updated extension map:

    if len(ext) > 0 {
      t, ok := types.Load(ext)
      if !ok {
        contentType = mime.TypeByExtension(ext)
        if len(contentType) == 0 {
          length := min(len(raw), 512)
          contentType = http.DetectContentType(raw[:length])
        }
        if contentType != "application/octet-stream" { types.Store(ext, contentType) }
      } else { contentType = t.(string) }
    }
-/
def ctResolveExt (env : Env) (types : List (Str × Str)) (ext raw : Str) :
    Str × List (Str × Str) :=
  if ext.length > 0 then
    match types.lookup ext with
    | some t => (t, types)
    | none =>
      let ct0 := env.mimeByExt ext
      let ct := if ct0.length = 0 then env.detect (raw.take 512) else ct0
      let types' := if ct ≠ octetStream then (ext, ct) :: types else types
      (ct, types')
  else ([], types)

/-- Content-Type logic of `src/main.go`, returning the served type and the
updated extension map:

    var contentType string
    t, ok := types.Load(ext)
    if !ok {
      length := min(len(raw), 512)
      contentType := http.DetectContentType(raw[:length])  // shadows the outer variable
      if contentType != "application/octet-stream" && len(ext) != 0 { types.Store(ext, contentType) }
    } else { contentType = t.(string) }

On a map miss the inner `:=` declares a fresh variable, so the outer
`contentType` that is later served remains the empty string. -/
def ctResolveM (env : Env) (types : List (Str × Str)) (ext raw : Str) :
    Str × List (Str × Str) :=
  match types.lookup ext with
  | some t => (t, types)
  | none =>
    let inner := env.detect (raw.take 512)
    let types' :=
      if inner ≠ octetStream ∧ ext.length ≠ 0 then (ext, inner) :: types else types
    ([], types')

/-- The preseeded extension map of `src/main.go` (lines 53-57). -/
def initTypesM : List (Str × Str) :=
  [ (".js".data, "application/javascript".data)
  , (".css".data, "text/css".data)
  , (".html".data, "text/html".data)
  , (".svg".data, "image/svg+xml".data)
  , (".ico".data, "image/x-icon".data) ]

/-! ## The request handler -/

/-- Initial path resolution of the handler (before the `again:` label):

    path := r.URL.Path
    if path == "/" { path = args.DefaultDoc }
    fullpath := filepath.Join(args.Positional.Directory, path)
    if !strings.HasPrefix(fullpath, args.Positional.Directory) { fullpath = defaultDoc }
-/
def resolveInit (cfg : Config) (p : Str) : Str :=
  let path := if p = ['/'] then cfg.defaultDocRel else p
  let fullpath := goJoin cfg.dir path
  if goHasPrefix fullpath cfg.dir then fullpath else cfg.defaultDoc

/-- One iteration of the handler's `again:` loop at the current `fullpath`,
parametric in the Content-Type block `ctr` (the two variants differ only
there).  `Sum.inl` is a finished response with the updated state; `Sum.inr`
models the `goto again` taken when the open fails and `fullpath` is not yet
the default document (the loop then re-runs at `defaultDoc`). -/
def attemptOnce (ctr : Env → List (Str × Str) → Str → Str → Str × List (Str × Str))
    (env : Env) (cfg : Config) (st : SrvState) (method : Method) (fullpath : Str) :
    Sum (SrvState × Response) Unit :=
  match (if cfg.memCache then st.cache.lookup fullpath else none) with
  | some entry => Sum.inl (st, respond method entry.contentType entry.content)
  | none =>
    match env.fs fullpath with
    | OpenResult.openErr msg =>
      if fullpath ≠ cfg.defaultDoc then Sum.inr ()
      else Sum.inl (st, httpError msg 404)
    | OpenResult.readErr =>
      Sum.inl (st, httpError "unable to read file".data 500)
    | OpenResult.ok raw =>
      let ctT := ctr env st.types (goExt fullpath) raw
      let cache' :=
        if cfg.memCache then (fullpath, CacheEntry.mk raw ctT.1) :: st.cache else st.cache
      Sum.inl (SrvState.mk cache' ctT.2, respond method ctT.1 raw)

/-- The full request handler, parametric in the Content-Type block.
OPTIONS short-circuits to a bare 200.  Otherwise the `again:` loop runs: at
most one retry happens, because the retry sets `fullpath = defaultDoc` and
the open-failure branch at the default document answers 404 directly.  The
final fallback arm is unreachable (`attemptOnce` at `defaultDoc` never asks
to retry). -/
def handleWith (ctr : Env → List (Str × Str) → Str → Str → Str × List (Str × Str))
    (env : Env) (cfg : Config) (st : SrvState) (method : Method) (p : Str) :
    SrvState × Response :=
  if method = Method.options then
    (st, { status := 200, contentType := none, contentLength := none, body := [] })
  else
    match attemptOnce ctr env cfg st method (resolveInit cfg p) with
    | Sum.inl r => r
    | Sum.inr () =>
      match attemptOnce ctr env cfg st method cfg.defaultDoc with
      | Sum.inl r => r
      | Sum.inr () => (st, httpError [] 404)

/-- The handler of the extended variant (`src/unnamed/part_000`). -/
def handleExt (env : Env) (cfg : Config) (st : SrvState) (method : Method) (p : Str) :
    SrvState × Response :=
  handleWith ctResolveExt env cfg st method p

/-- The handler of `src/main.go`. -/
def handleM (env : Env) (cfg : Config) (st : SrvState) (method : Method) (p : Str) :
    SrvState × Response :=
  handleWith ctResolveM env cfg st method p

/-! ## The pre-cache loader (`precache`, extended variant)

The loader walks the served tree with `os.ReadDir`, recursing into
directories and reading every regular file whole.  The tree it observes is
modelled as a forest of named entries; reading always succeeds on the
modelled tree (an unreadable file aborts startup via `panic`, which is the
absence of a result, not a value the loaded size could report). -/

mutual
/-- A directory entry as seen by the walk: a regular file with its content,
or a subdirectory with its own entries. -/
inductive FTree where
  | file (name : Str) (content : Str)
  | dir (name : Str) (entries : FForest)

/-- The listing of one directory, in walk order. -/
inductive FForest where
  | nil
  | cons (e : FTree) (es : FForest)
end

/-- Machine width of the loader's `uint64` size accumulator. -/
def U64 : Nat := 2 ^ 64

mutual
/-- Model of `precache` at a single directory entry: a subdirectory recurses with the
joined path; a regular file is read whole, its Content-Type resolved by the
same block as the handler (lines 236-256 equal lines 150-170), and a cache
entry stored unconditionally (pre-caching implies caching).  Returns the
updated state and the bytes accumulated into the `uint64` size. -/
def precacheEntry (env : Env) (dir : Str) (st : SrvState) : FTree → SrvState × Nat
  | FTree.dir name entries => precacheForest env (goJoin dir name) st entries
  | FTree.file name raw =>
    let fullpath := goJoin dir name
    let ctT := ctResolveExt env st.types (goExt fullpath) raw
    (SrvState.mk ((fullpath, CacheEntry.mk raw ctT.1) :: st.cache) ctT.2,
     raw.length % U64)

/-- Model of `precache` over the listing of one directory: `size` starts at zero and
accumulates each entry's contribution with `uint64` wrap-around. -/
def precacheForest (env : Env) (dir : Str) (st : SrvState) : FForest → SrvState × Nat
  | FForest.nil => (st, 0)
  | FForest.cons e es =>
    let r1 := precacheEntry env dir st e
    let r2 := precacheForest env dir r1.1 es
    (r2.1, (r1.2 + r2.2) % U64)
end

mutual
/-- The mathematical total of regular-file byte lengths in one entry. -/
def treeSize : FTree → Nat
  | FTree.file _ content => content.length
  | FTree.dir _ entries => forestSize entries

/-- The mathematical total of regular-file byte lengths in a listing. -/
def forestSize : FForest → Nat
  | FForest.nil => 0
  | FForest.cons e es => treeSize e + forestSize es
end

/-! ## Concrete collaborator instances for closed statements

The sniffer instance `sniffDemo` reproduces the answers of Go's `http.DetectContentType` on the
byte sequences appearing in the concrete theorems below: a payload starting
with the 8-byte PNG signature is `image/png` (exact signature match), a
plain printable-ASCII payload is `text/plain; charset=utf-8`, anything else
falls back to the generic type. -/

/-- The 8-byte PNG signature `\x89PNG\r\n\x1a\n`. -/
def pngSig : Str :=
  [Char.ofNat 137, 'P', 'N', 'G', Char.ofNat 13, Char.ofNat 10, Char.ofNat 26, Char.ofNat 10]

/-- Concrete content sniffer for the closed statements (see above). -/
def sniffDemo (raw : Str) : Str :=
  if pngSig.isPrefixOf raw then "image/png".data
  else if raw.all (fun c => 31 < c.toNat ∧ c.toNat < 127) then
    "text/plain; charset=utf-8".data
  else octetStream

/-- A registry (`mime.TypeByExtension`) that knows no extension, as for an
unregistered extension such as `.xyz`. -/
def mimeEmpty : Str → Str := fun _ => []

/-- A one-file filesystem: `path` holds `content`, every other path fails to
open with a `no such file` error. -/
def fsSingle (path content : Str) : Str → OpenResult := fun q =>
  if q = path then OpenResult.ok content
  else OpenResult.openErr ("open ".data ++ q ++ ": no such file or directory".data)

/-! ## Lemmas on the path model -/

theorem splitSlash_cons (c : Char) (cs : Str) :
    splitSlash (c :: cs) =
      match splitSlash cs with
      | [] => [[]]
      | w :: ws => if c = '/' then [] :: w :: ws else (c :: w) :: ws := by
  rw [splitSlash]

theorem splitSlash_ne_nil (s : Str) : splitSlash s ≠ [] := by
  cases s with
  | nil => simp [splitSlash]
  | cons c cs =>
    rw [splitSlash_cons]
    cases h : splitSlash cs with
    | nil => simp
    | cons w ws => by_cases hc : c = '/' <;> simp [hc]

theorem splitSlash_cons_slash (p : Str) : splitSlash ('/' :: p) = [] :: splitSlash p := by
  rw [splitSlash_cons]
  cases h : splitSlash p with
  | nil => exact absurd h (splitSlash_ne_nil p)
  | cons w ws => simp

/-- Splitting distributes over concatenation at a separator. -/
theorem splitSlash_append_slash (xs ys : Str) :
    splitSlash (xs ++ '/' :: ys) = splitSlash xs ++ splitSlash ys := by
  induction xs with
  | nil =>
    rw [List.nil_append, splitSlash_cons_slash]
    rfl
  | cons c xs ih =>
    show splitSlash (c :: (xs ++ '/' :: ys)) = _
    rw [splitSlash_cons, splitSlash_cons, ih]
    cases h : splitSlash xs with
    | nil => exact absurd h (splitSlash_ne_nil xs)
    | cons w ws => by_cases hc : c = '/' <;> simp [hc]

/-- Empty components are dropped by the cleaning fold. -/
theorem cleanComps_append_nil (A B : List Str) :
    cleanComps (A ++ [] :: B) = cleanComps (A ++ B) := by
  unfold cleanComps
  rw [List.foldl_append, List.foldl_append, List.foldl_cons]
  have hp : pushComp (List.foldl pushComp [] A) [] = List.foldl pushComp [] A := by
    simp [pushComp]
  rw [hp]

/-- A leading separator on the joined element is absorbed by cleaning
(`filepath.Join(dir, "/x")` equals `filepath.Join(dir, "x")`). -/
theorem goJoin_slash (dir p : Str) : goJoin dir ('/' :: p) = goJoin dir p := by
  unfold goJoin cleanAbs
  have h1 : dir ++ '/' :: '/' :: p = dir ++ '/' :: ('/' :: p) := rfl
  rw [h1, splitSlash_append_slash, splitSlash_append_slash, splitSlash_cons_slash,
    cleanComps_append_nil]

/-- Resolution keeps the served root as a string prefix, given the startup
invariant that the default document path has that prefix. -/
theorem resolveInit_rooted (cfg : Config) (p : Str)
    (h : goHasPrefix cfg.defaultDoc cfg.dir = true) :
    goHasPrefix (resolveInit cfg p) cfg.dir = true := by
  simp only [resolveInit]
  split <;> split <;> assumption

/-- When the cleaned join escapes the root's string prefix, resolution
substitutes the default document path. -/
theorem resolveInit_escape (cfg : Config) (p : Str)
    (h : goHasPrefix (goJoin cfg.dir (if p = ['/'] then cfg.defaultDocRel else p)) cfg.dir
      = false) :
    resolveInit cfg p = cfg.defaultDoc := by
  simp [resolveInit, h]

/-! ## Claims about path resolution -/

/-- C1 (counterexample): the request path `/../databackup/x` contains a
traversal sequence, yet against served root `/data` resolution yields
`/databackup/x` — a path that is not a descendant of the served root (it is
the sibling directory `/databackup`) and is not the default document path.
The `strings.HasPrefix` guard passes because `/databackup/x` extends the
root as a string. -/
theorem resolve_traversal_escapes_to_sibling :
    "..".data ∈ splitSlash "/../databackup/x".data ∧
    resolveInit (Config.mk "/data".data "index.html".data false) "/../databackup/x".data
      = "/databackup/x".data ∧
    goHasPrefix "/databackup/x".data "/data/".data = false ∧
    "/databackup/x".data ≠ "/data".data ∧
    resolveInit (Config.mk "/data".data "index.html".data false) "/../databackup/x".data
      ≠ (Config.mk "/data".data "index.html".data false).defaultDoc := by
  decide

/-- C1 (amended): resolution always yields a path that has the served root
as a *string prefix* (given the startup invariant on the default document),
and whenever the cleaned join escapes that string prefix the result is
exactly the default document path.  A descendant guarantee does not hold:
a traversal path may resolve to a sibling directory whose absolute path
extends the root string. -/
theorem resolve_confines_to_prefix_or_default (cfg : Config) (p : Str)
    (h : goHasPrefix cfg.defaultDoc cfg.dir = true) :
    goHasPrefix (resolveInit cfg p) cfg.dir = true ∧
    (goHasPrefix (goJoin cfg.dir (if p = ['/'] then cfg.defaultDocRel else p)) cfg.dir
        = false →
      resolveInit cfg p = cfg.defaultDoc) :=
  ⟨resolveInit_rooted cfg p h, fun hesc => resolveInit_escape cfg p hesc⟩

/-- C1 (witness): at served root `/data` with default document `index.html`,
the traversal request `/../../etc/passwd` escapes the prefix and resolves to
the default document path `/data/index.html`. -/
theorem resolve_confines_witness :
    goHasPrefix
      (resolveInit (Config.mk "/data".data "index.html".data false) "/../../etc/passwd".data)
      "/data".data = true ∧
    resolveInit (Config.mk "/data".data "index.html".data false) "/../../etc/passwd".data
      = (Config.mk "/data".data "index.html".data false).defaultDoc := by
  have h := resolve_confines_to_prefix_or_default
    (Config.mk "/data".data "index.html".data false) "/../../etc/passwd".data (by decide)
  exact ⟨h.1, h.2 (by decide)⟩

/-! ## The loop invariant of the handler -/

/-- One loop iteration either finishes — with a cache that gained at most
one entry, keyed by the iteration's `fullpath` — or asks to retry with the
state untouched. -/
theorem attemptOnce_cases
    (ctr : Env → List (Str × Str) → Str → Str → Str × List (Str × Str))
    (env : Env) (cfg : Config) (st : SrvState) (method : Method) (fp : Str) :
    (∃ st' r, attemptOnce ctr env cfg st method fp = Sum.inl (st', r) ∧
      (st'.cache = st.cache ∨ ∃ e, st'.cache = (fp, e) :: st.cache)) ∨
    attemptOnce ctr env cfg st method fp = Sum.inr () := by
  unfold attemptOnce
  cases hc : (if cfg.memCache then st.cache.lookup fp else none) with
  | some entry => exact Or.inl ⟨st, _, rfl, Or.inl rfl⟩
  | none =>
    cases hf : env.fs fp with
    | openErr msg =>
      by_cases hd : fp ≠ cfg.defaultDoc
      · exact Or.inr (if_pos hd)
      · exact Or.inl ⟨st, _, if_neg hd, Or.inl rfl⟩
    | readErr => exact Or.inl ⟨st, _, rfl, Or.inl rfl⟩
    | ok raw =>
      cases hm : cfg.memCache with
      | false => exact Or.inl ⟨_, _, rfl, Or.inl (by simp)⟩
      | true =>
        exact Or.inl ⟨_, _, rfl,
          Or.inr ⟨CacheEntry.mk raw (ctr env st.types (goExt fp) raw).1, by simp⟩⟩

/-- C10: invariant of the handler's resolution loop.  Given the startup
invariant (the default document path extends the served root string), every
cache entry present after a request either was already present or is keyed
by a path that has the served root as a *string prefix*; the two paths the
loop can pass to the filesystem open — the initial resolution and the
default document used by the retry — both have the served root as a string
prefix.  The guarantee is string-prefix only, not directory-descendant: the
cleaned join of root `/data` with `/../databackup/x` lands in the sibling
directory `/databackup` yet passes the prefix check. -/
theorem handler_loop_prefix_invariant
    (ctr : Env → List (Str × Str) → Str → Str → Str × List (Str × Str))
    (env : Env) (cfg : Config) (st : SrvState) (method : Method) (p : Str)
    (h : goHasPrefix cfg.defaultDoc cfg.dir = true) :
    (∀ kv ∈ (handleWith ctr env cfg st method p).1.cache,
      kv ∈ st.cache ∨ goHasPrefix kv.1 cfg.dir = true) ∧
    (goHasPrefix (resolveInit cfg p) cfg.dir = true ∧
     goHasPrefix cfg.defaultDoc cfg.dir = true) ∧
    (goHasPrefix (goJoin "/data".data "/../databackup/x".data) "/data".data = true ∧
     goHasPrefix (goJoin "/data".data "/../databackup/x".data) "/data/".data = false) := by
  refine ⟨?_, ⟨resolveInit_rooted cfg p h, h⟩, by decide⟩
  intro kv hkv
  unfold handleWith at hkv
  by_cases hopt : method = Method.options
  · simp only [hopt, if_pos] at hkv
    exact Or.inl hkv
  · simp only [hopt, if_neg, reduceIte] at hkv
    rcases attemptOnce_cases ctr env cfg st method (resolveInit cfg p) with
      ⟨st1, r1, heq, hsub⟩ | heq
    · rw [heq] at hkv
      rcases hsub with hsame | ⟨e, hcons⟩
      · rw [hsame] at hkv
        exact Or.inl hkv
      · rw [hcons] at hkv
        rcases List.mem_cons.mp hkv with hkv1 | hkv2
        · subst hkv1
          exact Or.inr (resolveInit_rooted cfg p h)
        · exact Or.inl hkv2
    · rw [heq] at hkv
      rcases attemptOnce_cases ctr env cfg st method cfg.defaultDoc with
        ⟨st2, r2, heq2, hsub2⟩ | heq2
      · rw [heq2] at hkv
        rcases hsub2 with hsame | ⟨e, hcons⟩
        · rw [hsame] at hkv
          exact Or.inl hkv
        · rw [hcons] at hkv
          rcases List.mem_cons.mp hkv with hkv1 | hkv2
          · subst hkv1
            exact Or.inr h
          · exact Or.inl hkv2
      · rw [heq2] at hkv
        exact Or.inl hkv

/-- C10 (witness): the invariant instantiated at served root `/data`,
default document `index.html`, a cached state, and the sibling-escaping
request `/../databackup/x` with the cache enabled. -/
theorem handler_loop_prefix_invariant_witness :
    (∀ kv ∈ (handleWith ctResolveM (Env.mk mimeEmpty sniffDemo
        (fsSingle "/databackup/x".data "hi".data))
        (Config.mk "/data".data "index.html".data true)
        (SrvState.mk [] initTypesM) Method.get "/../databackup/x".data).1.cache,
      kv ∈ (SrvState.mk ([] : List (Str × CacheEntry)) initTypesM).cache ∨
        goHasPrefix kv.1 "/data".data = true) ∧
    (goHasPrefix
        (resolveInit (Config.mk "/data".data "index.html".data true) "/../databackup/x".data)
        "/data".data = true ∧
     goHasPrefix (Config.mk "/data".data "index.html".data true).defaultDoc "/data".data
        = true) ∧
    (goHasPrefix (goJoin "/data".data "/../databackup/x".data) "/data".data = true ∧
     goHasPrefix (goJoin "/data".data "/../databackup/x".data) "/data/".data = false) :=
  handler_loop_prefix_invariant ctResolveM
    (Env.mk mimeEmpty sniffDemo (fsSingle "/databackup/x".data "hi".data))
    (Config.mk "/data".data "index.html".data true)
    (SrvState.mk [] initTypesM) Method.get "/../databackup/x".data (by decide)

/-! ## Requesting the root path -/

/-- C9: a GET for `/` and a GET for the configured default-document relative
path (as the URL path `/` followed by the relative name) resolve to the same
absolute path and produce the same response — same bytes, same Content-Type,
same resulting state — under either content-type variant. -/
theorem root_equals_default_doc_request
    (ctr : Env → List (Str × Str) → Str → Str → Str × List (Str × Str))
    (env : Env) (cfg : Config) (st : SrvState) :
    resolveInit cfg ('/' :: cfg.defaultDocRel) = resolveInit cfg ['/'] ∧
    handleWith ctr env cfg st Method.get ('/' :: cfg.defaultDocRel)
      = handleWith ctr env cfg st Method.get ['/'] := by
  have hres : resolveInit cfg ('/' :: cfg.defaultDocRel) = resolveInit cfg ['/'] := by
    by_cases hdd : cfg.defaultDocRel = ([] : Str)
    · simp [resolveInit, hdd]
    · have hne : ('/' :: cfg.defaultDocRel) ≠ (['/'] : Str) := by
        intro hcontra
        injection hcontra with h1 h2
        exact hdd h2
      simp only [resolveInit, hne, reduceIte, goJoin_slash]
  refine ⟨hres, ?_⟩
  unfold handleWith
  rw [hres]

/-! ## HEAD versus GET -/

/-- A loop iteration for a HEAD request equals the GET iteration with the
body of a successful (status 200) response emptied; headers, status and the
resulting state are untouched. -/
theorem attemptOnce_head_get
    (ctr : Env → List (Str × Str) → Str → Str → Str × List (Str × Str))
    (env : Env) (cfg : Config) (st : SrvState) (fp : Str) :
    attemptOnce ctr env cfg st Method.head fp =
      Sum.map (fun sr : SrvState × Response =>
          (sr.1, { sr.2 with body := if sr.2.status = 200 then [] else sr.2.body }))
        id (attemptOnce ctr env cfg st Method.get fp) := by
  unfold attemptOnce
  cases hc : (if cfg.memCache then st.cache.lookup fp else none) with
  | some entry => simp [respond]
  | none =>
    cases hf : env.fs fp with
    | openErr msg =>
      by_cases hd : fp ≠ cfg.defaultDoc
      · dsimp only
        rw [if_pos hd]
        rfl
      · dsimp only
        rw [if_neg hd]
        simp [httpError]
    | readErr => simp [httpError]
    | ok raw => simp [respond]

/-- C7: for every path and state, a HEAD request produces the same resulting
server state, the same status, and the same Content-Type and Content-Length
headers as the corresponding GET, and writes no body whenever the request is
served (status 200, i.e. a cache hit or a successful miss read), under
either content-type variant. -/
theorem head_same_headers_no_body
    (ctr : Env → List (Str × Str) → Str → Str → Str × List (Str × Str))
    (env : Env) (cfg : Config) (st : SrvState) (p : Str) :
    (handleWith ctr env cfg st Method.head p).1
      = (handleWith ctr env cfg st Method.get p).1 ∧
    (handleWith ctr env cfg st Method.head p).2.status
      = (handleWith ctr env cfg st Method.get p).2.status ∧
    (handleWith ctr env cfg st Method.head p).2.contentType
      = (handleWith ctr env cfg st Method.get p).2.contentType ∧
    (handleWith ctr env cfg st Method.head p).2.contentLength
      = (handleWith ctr env cfg st Method.get p).2.contentLength ∧
    ((handleWith ctr env cfg st Method.head p).2.status = 200 →
      (handleWith ctr env cfg st Method.head p).2.body = []) := by
  unfold handleWith
  rw [attemptOnce_head_get ctr env cfg st (resolveInit cfg p),
    attemptOnce_head_get ctr env cfg st cfg.defaultDoc]
  cases hA : attemptOnce ctr env cfg st Method.get (resolveInit cfg p) with
  | inl r =>
    refine ⟨rfl, rfl, rfl, rfl, ?_⟩
    intro hs
    simp only [Sum.map] at hs ⊢
    simp at hs
    simp [hs]
  | inr u =>
    cases u
    cases hB : attemptOnce ctr env cfg st Method.get cfg.defaultDoc with
    | inl r =>
      refine ⟨rfl, rfl, rfl, rfl, ?_⟩
      intro hs
      simp only [Sum.map] at hs ⊢
      simp at hs
      simp [hs]
    | inr u2 =>
      cases u2
      exact ⟨rfl, rfl, rfl, rfl, by intro hs; simp [httpError] at hs⟩

/-- C7 (witness): at root `/r` with `/r/a.html` present and caching on, the
HEAD request for `/a.html` yields the GET's state, status and headers, and
an empty body on the served (status 200) response. -/
theorem head_same_headers_no_body_witness :
    ((handleWith ctResolveExt (Env.mk mimeEmpty sniffDemo (fsSingle "/r/a.html".data "hi".data))
        (Config.mk "/r".data "index.html".data true) (SrvState.mk [] [])
        Method.head "/a.html".data).1
      = (handleWith ctResolveExt (Env.mk mimeEmpty sniffDemo (fsSingle "/r/a.html".data "hi".data))
        (Config.mk "/r".data "index.html".data true) (SrvState.mk [] [])
        Method.get "/a.html".data).1) ∧
    ((handleWith ctResolveExt (Env.mk mimeEmpty sniffDemo (fsSingle "/r/a.html".data "hi".data))
        (Config.mk "/r".data "index.html".data true) (SrvState.mk [] [])
        Method.head "/a.html".data).2.contentType
      = (handleWith ctResolveExt (Env.mk mimeEmpty sniffDemo (fsSingle "/r/a.html".data "hi".data))
        (Config.mk "/r".data "index.html".data true) (SrvState.mk [] [])
        Method.get "/a.html".data).2.contentType) ∧
    ((handleWith ctResolveExt (Env.mk mimeEmpty sniffDemo (fsSingle "/r/a.html".data "hi".data))
        (Config.mk "/r".data "index.html".data true) (SrvState.mk [] [])
        Method.head "/a.html".data).2.contentLength
      = (handleWith ctResolveExt (Env.mk mimeEmpty sniffDemo (fsSingle "/r/a.html".data "hi".data))
        (Config.mk "/r".data "index.html".data true) (SrvState.mk [] [])
        Method.get "/a.html".data).2.contentLength) ∧
    (handleWith ctResolveExt (Env.mk mimeEmpty sniffDemo (fsSingle "/r/a.html".data "hi".data))
        (Config.mk "/r".data "index.html".data true) (SrvState.mk [] [])
        Method.head "/a.html".data).2.body = [] := by
  have h := head_same_headers_no_body ctResolveExt
    (Env.mk mimeEmpty sniffDemo (fsSingle "/r/a.html".data "hi".data))
    (Config.mk "/r".data "index.html".data true) (SrvState.mk [] [])
    "/a.html".data
  exact ⟨h.1, h.2.2.1, h.2.2.2.1, h.2.2.2.2 (by decide)⟩

/-! ## Open failure: one fallback, then 404 -/

/-- C4: when the resolved path fails to open, is not already the default
document path, and the (possibly disabled) cache holds neither path, the
handler retries with the default document path; when that open also fails,
the response is 404 whose body is the second failure's OS error message
(plus the newline `http.Error` appends) and the state is unchanged — under
either content-type variant and for any non-OPTIONS method. -/
theorem open_error_falls_back_once_then_404
    (ctr : Env → List (Str × Str) → Str → Str → Str × List (Str × Str))
    (env : Env) (cfg : Config) (st : SrvState) (method : Method) (p : Str) (m1 m2 : Str)
    (hm : method ≠ Method.options)
    (hc1 : cfg.memCache = true → st.cache.lookup (resolveInit cfg p) = none)
    (h1 : env.fs (resolveInit cfg p) = OpenResult.openErr m1)
    (hne : resolveInit cfg p ≠ cfg.defaultDoc)
    (hc2 : cfg.memCache = true → st.cache.lookup cfg.defaultDoc = none)
    (h2 : env.fs cfg.defaultDoc = OpenResult.openErr m2) :
    handleWith ctr env cfg st method p = (st, httpError m2 404) := by
  have hl1 : (if cfg.memCache then st.cache.lookup (resolveInit cfg p) else none) = none := by
    cases hmc : cfg.memCache with
    | false => rfl
    | true => exact (if_pos rfl).trans (hc1 hmc)
  have hl2 : (if cfg.memCache then st.cache.lookup cfg.defaultDoc else none) = none := by
    cases hmc : cfg.memCache with
    | false => rfl
    | true => exact (if_pos rfl).trans (hc2 hmc)
  have hA : attemptOnce ctr env cfg st method (resolveInit cfg p) = Sum.inr () := by
    simp only [attemptOnce, hl1, h1]
    rw [if_pos hne]
  have hB : attemptOnce ctr env cfg st method cfg.defaultDoc
      = Sum.inl (st, httpError m2 404) := by
    simp only [attemptOnce, hl2, h2]
    rw [if_neg (fun hh => hh rfl)]
  unfold handleWith
  rw [if_neg hm, hA, hB]

/-- C4 (witness): with root `/r`, default document `index.html`, caching on
with an empty cache, and a filesystem where every open fails with a
`no such file` message, the request `/missing` answers 404 with the error
text of the *default document's* open failure as body. -/
theorem open_error_falls_back_witness :
    handleWith ctResolveM
      (Env.mk mimeEmpty sniffDemo (fun q =>
        OpenResult.openErr ("open ".data ++ q ++ ": no such file or directory".data)))
      (Config.mk "/r".data "index.html".data true)
      (SrvState.mk [] initTypesM) Method.get "/missing".data
      = (SrvState.mk [] initTypesM,
         httpError "open /r/index.html: no such file or directory".data 404) := by
  have h := open_error_falls_back_once_then_404 ctResolveM
    (Env.mk mimeEmpty sniffDemo (fun q =>
      OpenResult.openErr ("open ".data ++ q ++ ": no such file or directory".data)))
    (Config.mk "/r".data "index.html".data true)
    (SrvState.mk [] initTypesM) Method.get "/missing".data
    "open /r/missing: no such file or directory".data
    "open /r/index.html: no such file or directory".data
    (by decide) (fun _ => rfl) (by decide) (by decide) (fun _ => rfl) (by decide)
  exact h

/-! ## Read failure after a successful open -/

/-- C8: when the resolved path opens but its content read fails (and the
cache, if enabled, holds no entry for it), the handler answers 500 with the
generic message `unable to read file` and an unchanged state; it does not
retry and does not fall back to the default document (the response does not
depend on the default document at all) — under either content-type variant
and any non-OPTIONS method. -/
theorem read_error_returns_500
    (ctr : Env → List (Str × Str) → Str → Str → Str × List (Str × Str))
    (env : Env) (cfg : Config) (st : SrvState) (method : Method) (p : Str)
    (hm : method ≠ Method.options)
    (hc : cfg.memCache = true → st.cache.lookup (resolveInit cfg p) = none)
    (h : env.fs (resolveInit cfg p) = OpenResult.readErr) :
    handleWith ctr env cfg st method p = (st, httpError "unable to read file".data 500) := by
  have hl : (if cfg.memCache then st.cache.lookup (resolveInit cfg p) else none) = none := by
    cases hmc : cfg.memCache with
    | false => rfl
    | true => exact (if_pos rfl).trans (hc hmc)
  have hA : attemptOnce ctr env cfg st method (resolveInit cfg p)
      = Sum.inl (st, httpError "unable to read file".data 500) := by
    simp only [attemptOnce, hl, h]
  unfold handleWith
  rw [if_neg hm, hA]

/-- C8 (witness): root `/r`, cache disabled, `/r/a.html` opens but fails to
read: the response is the 500 with the generic body. -/
theorem read_error_returns_500_witness :
    handleWith ctResolveM
      (Env.mk mimeEmpty sniffDemo (fun q =>
        if q = "/r/a.html".data then OpenResult.readErr
        else OpenResult.openErr "nope".data))
      (Config.mk "/r".data "index.html".data false)
      (SrvState.mk [] initTypesM) Method.get "/a.html".data
      = (SrvState.mk [] initTypesM, httpError "unable to read file".data 500) :=
  read_error_returns_500 ctResolveM
    (Env.mk mimeEmpty sniffDemo (fun q =>
      if q = "/r/a.html".data then OpenResult.readErr
      else OpenResult.openErr "nope".data))
    (Config.mk "/r".data "index.html".data false)
    (SrvState.mk [] initTypesM) Method.get "/a.html".data
    (by decide) (fun hmc => by simp at hmc) (by decide)

/-! ## Empty extensions -/

/-- C5 (counterexample): a file with no extension whose content bears the
PNG signature.  Sniffing the content would give `image/png`, but the
extended variant skips content-type discovery entirely for an empty
extension (the `len(ext) > 0` guard) and serves the empty Content-Type; the
`src/main.go` variant does sniff, yet discards the result through the
shadowed inner variable, also serving the empty string. -/
theorem empty_extension_not_sniffed :
    (handleExt (Env.mk mimeEmpty sniffDemo (fsSingle "/r/logo".data (pngSig ++ "IHDR".data)))
        (Config.mk "/r".data "index.html".data false) (SrvState.mk [] [])
        Method.get "/logo".data).2.contentType = some [] ∧
    sniffDemo ((pngSig ++ "IHDR".data).take 512) = "image/png".data ∧
    some ([] : Str) ≠ some ("image/png".data) ∧
    (handleM (Env.mk mimeEmpty sniffDemo (fsSingle "/r/logo".data (pngSig ++ "IHDR".data)))
        (Config.mk "/r".data "index.html".data false) (SrvState.mk [] initTypesM)
        Method.get "/logo".data).2.contentType = some [] := by
  decide

/-- C5 (amended): for every resolved file whose extension is empty, the
served Content-Type is the empty string: the extended variant performs no
discovery at all (sniffing included), and `src/main.go` serves the empty
string as well (its sniff result is discarded by the shadowed variable).
Assumes the request reaches the read (no cache hit) and the extension map
has no binding for the empty extension (it never does in reachable states:
every store is guarded by a non-empty extension). -/
theorem empty_extension_serves_empty_type
    (env : Env) (cfg : Config) (st : SrvState) (method : Method) (p : Str) (raw : Str)
    (hm : method ≠ Method.options)
    (hc : cfg.memCache = true → st.cache.lookup (resolveInit cfg p) = none)
    (hf : env.fs (resolveInit cfg p) = OpenResult.ok raw)
    (he : goExt (resolveInit cfg p) = [])
    (ht : st.types.lookup ([] : Str) = none) :
    (handleExt env cfg st method p).2.contentType = some [] ∧
    (handleM env cfg st method p).2.contentType = some [] := by
  have hl : (if cfg.memCache then st.cache.lookup (resolveInit cfg p) else none) = none := by
    cases hmc : cfg.memCache with
    | false => rfl
    | true => exact (if_pos rfl).trans (hc hmc)
  have hextE : ctResolveExt env st.types (goExt (resolveInit cfg p)) raw = ([], st.types) := by
    rw [he]
    simp [ctResolveExt]
  have hextM : ctResolveM env st.types (goExt (resolveInit cfg p)) raw
      = ([], st.types) := by
    rw [he]
    simp [ctResolveM, ht]
  constructor
  · unfold handleExt handleWith
    rw [if_neg hm]
    simp only [attemptOnce, hl, hf, hextE]
    rfl
  · unfold handleM handleWith
    rw [if_neg hm]
    simp only [attemptOnce, hl, hf, hextM]
    rfl

/-- C5 (witness): the amended statement at root `/r`, caching enabled with
an empty cache and empty extension map, for the extensionless file
`/r/noext` holding `x`. -/
theorem empty_extension_serves_empty_type_witness :
    (handleExt (Env.mk mimeEmpty sniffDemo (fsSingle "/r/noext".data "x".data))
        (Config.mk "/r".data "index.html".data true) (SrvState.mk [] [])
        Method.get "/noext".data).2.contentType = some [] ∧
    (handleM (Env.mk mimeEmpty sniffDemo (fsSingle "/r/noext".data "x".data))
        (Config.mk "/r".data "index.html".data true) (SrvState.mk [] [])
        Method.get "/noext".data).2.contentType = some [] :=
  empty_extension_serves_empty_type
    (Env.mk mimeEmpty sniffDemo (fsSingle "/r/noext".data "x".data))
    (Config.mk "/r".data "index.html".data true) (SrvState.mk [] [])
    Method.get "/noext".data "x".data
    (by decide) (fun _ => rfl) (by decide) (by decide) rfl

/-! ## The shadowed Content-Type of `src/main.go` -/

/-- C3 (evaluation at the failing input): `GET /a.xyz` against `src/main.go`
with root `/r`, where `/r/a.xyz` holds ASCII text, `.xyz` is not in the
(preseeded) extension map, the registry lookup is empty, and the sniffer
discovers `text/plain; charset=utf-8`.  The handler memoizes the discovered
type into the extension map, yet writes the *empty string* as the response
Content-Type (main.go line 142 declares a shadowed inner variable with `:=`,
so the served outer variable keeps its zero value).  The extended variant at
the same input serves the discovered type, as the claim states. -/
theorem shadowed_content_type_served_empty :
    mimeEmpty ".xyz".data = [] ∧
    sniffDemo ("hello world".data.take 512) = "text/plain; charset=utf-8".data ∧
    (handleM (Env.mk mimeEmpty sniffDemo (fsSingle "/r/a.xyz".data "hello world".data))
        (Config.mk "/r".data "index.html".data false) (SrvState.mk [] initTypesM)
        Method.get "/a.xyz".data).2.contentType = some [] ∧
    (handleM (Env.mk mimeEmpty sniffDemo (fsSingle "/r/a.xyz".data "hello world".data))
        (Config.mk "/r".data "index.html".data false) (SrvState.mk [] initTypesM)
        Method.get "/a.xyz".data).1.types.lookup ".xyz".data
      = some ("text/plain; charset=utf-8".data) ∧
    (handleExt (Env.mk mimeEmpty sniffDemo (fsSingle "/r/a.xyz".data "hello world".data))
        (Config.mk "/r".data "index.html".data false) (SrvState.mk [] [])
        Method.get "/a.xyz".data).2.contentType
      = some ("text/plain; charset=utf-8".data) := by
  decide

/-! ## Two consecutive GETs -/

/-- C2 (evaluation at the failing input): with the cache disabled, two
consecutive GETs for the existing path `/a.xyz` against `src/main.go`
return identical bytes but *different* Content-Type values: the first
serves the empty string (the sniffed type goes to the shadowed variable)
while memoizing the sniffed type, and the second serves the memoized
`text/plain; charset=utf-8` from the extension map. -/
theorem second_get_changes_content_type :
    ((handleM (Env.mk mimeEmpty sniffDemo (fsSingle "/r/a.xyz".data "hello world".data))
        (Config.mk "/r".data "index.html".data false) (SrvState.mk [] initTypesM)
        Method.get "/a.xyz".data).2.body
      = (handleM (Env.mk mimeEmpty sniffDemo (fsSingle "/r/a.xyz".data "hello world".data))
          (Config.mk "/r".data "index.html".data false)
          (handleM (Env.mk mimeEmpty sniffDemo (fsSingle "/r/a.xyz".data "hello world".data))
            (Config.mk "/r".data "index.html".data false) (SrvState.mk [] initTypesM)
            Method.get "/a.xyz".data).1
          Method.get "/a.xyz".data).2.body) ∧
    (handleM (Env.mk mimeEmpty sniffDemo (fsSingle "/r/a.xyz".data "hello world".data))
        (Config.mk "/r".data "index.html".data false) (SrvState.mk [] initTypesM)
        Method.get "/a.xyz".data).2.contentType = some [] ∧
    (handleM (Env.mk mimeEmpty sniffDemo (fsSingle "/r/a.xyz".data "hello world".data))
        (Config.mk "/r".data "index.html".data false)
        (handleM (Env.mk mimeEmpty sniffDemo (fsSingle "/r/a.xyz".data "hello world".data))
          (Config.mk "/r".data "index.html".data false) (SrvState.mk [] initTypesM)
          Method.get "/a.xyz".data).1
        Method.get "/a.xyz".data).2.contentType
      = some ("text/plain; charset=utf-8".data) ∧
    (handleM (Env.mk mimeEmpty sniffDemo (fsSingle "/r/a.xyz".data "hello world".data))
        (Config.mk "/r".data "index.html".data false) (SrvState.mk [] initTypesM)
        Method.get "/a.xyz".data).2.contentType
      ≠ (handleM (Env.mk mimeEmpty sniffDemo (fsSingle "/r/a.xyz".data "hello world".data))
          (Config.mk "/r".data "index.html".data false)
          (handleM (Env.mk mimeEmpty sniffDemo (fsSingle "/r/a.xyz".data "hello world".data))
            (Config.mk "/r".data "index.html".data false) (SrvState.mk [] initTypesM)
            Method.get "/a.xyz".data).1
          Method.get "/a.xyz".data).2.contentType := by
  decide

/-! ## The pre-cache size -/

mutual
/-- The size accumulated by `precache` for one entry is the entry's total
regular-file byte length, wrapped at the `uint64` width. -/
theorem precacheEntry_size (env : Env) (dir : Str) (st : SrvState) (e : FTree) :
    (precacheEntry env dir st e).2 = treeSize e % U64 := by
  cases e with
  | file n c => rfl
  | dir n es => exact precacheForest_size env (goJoin dir n) st es

/-- The size accumulated by `precache` over a listing is the listing's total
regular-file byte length, wrapped at the `uint64` width. -/
theorem precacheForest_size (env : Env) (dir : Str) (st : SrvState) (es : FForest) :
    (precacheForest env dir st es).2 = forestSize es % U64 := by
  cases es with
  | nil => rfl
  | cons e es =>
    have h1 := precacheEntry_size env dir st e
    have h2 := precacheForest_size env dir (precacheEntry env dir st e).1 es
    simp only [precacheForest, forestSize]
    rw [h1, h2, Nat.add_mod (treeSize e) (forestSize es) U64]
end

/-- C6: for every directory tree whose total regular-file byte size fits the
loader's `uint64` accumulator, the size returned by the `precache` walk over
the served root's listing equals the sum of the byte lengths of all regular
files in the tree, over any starting state. -/
theorem precache_size_is_total_file_size (env : Env) (dir : Str) (st : SrvState)
    (es : FForest) (h : forestSize es < U64) :
    (precacheForest env dir st es).2 = forestSize es := by
  rw [precacheForest_size, Nat.mod_eq_of_lt h]

/-- C6 (witness): a root listing with one file `a.html` (2 bytes) and a
subdirectory `sub` holding `b` (3 bytes): the loader reports 5 bytes. -/
theorem precache_size_is_total_file_size_witness :
    (precacheForest (Env.mk mimeEmpty sniffDemo (fsSingle [] []))
        "/r".data (SrvState.mk [] [])
        (FForest.cons (FTree.file "a.html".data "hi".data)
          (FForest.cons (FTree.dir "sub".data
            (FForest.cons (FTree.file "b".data "xyz".data) FForest.nil))
            FForest.nil))).2
      = forestSize (FForest.cons (FTree.file "a.html".data "hi".data)
          (FForest.cons (FTree.dir "sub".data
            (FForest.cons (FTree.file "b".data "xyz".data) FForest.nil))
            FForest.nil)) ∧
    forestSize (FForest.cons (FTree.file "a.html".data "hi".data)
        (FForest.cons (FTree.dir "sub".data
          (FForest.cons (FTree.file "b".data "xyz".data) FForest.nil))
          FForest.nil)) = 5 := by
  refine ⟨precache_size_is_total_file_size (Env.mk mimeEmpty sniffDemo (fsSingle [] []))
    "/r".data (SrvState.mk [] [])
    (FForest.cons (FTree.file "a.html".data "hi".data)
      (FForest.cons (FTree.dir "sub".data
        (FForest.cons (FTree.file "b".data "xyz".data) FForest.nil))
        FForest.nil)) ?_, by decide⟩
  decide
